import Mathlib

/-!
Shallow embedding of the `kinda-virtual-fs` Rust crate (`src/lib.rs`).

Modelling conventions:

* The filesystem is a finite partial map from path strings to file contents
  (byte sequences, modelled as `List Nat`).  `Path::exists` is `isSome`,
  `std::fs::write` updates the map, `std::fs::remove_file` deletes the key.
  Filesystem primitives are modelled as total: environmental failures
  (permissions, disk full) are outside the embedding.  Every operation also
  returns the trace of filesystem side effects (`FsOp`) it performed, so that
  "performed a write / attempted a delete" is directly observable.
* `SystemTime::now().duration_since(UNIX_EPOCH)` is modelled by an explicit
  `clock : Option Nat` argument (microseconds since the epoch, `none` when the
  clock is unavailable, matching the `Err` case of `duration_since`).
* `std::env::temp_dir()` is an explicit `tempDir : String` argument.
* Rust `format!("{:x}", n)` is `hexStr`, lowercase hexadecimal digits.
* `HashMap<String, Entry>` is an association list with unique keys;
  `insert` replaces the binding in place and returns the previous value,
  exactly like `HashMap::insert`.
-/

/-- The filesystem state: which paths hold which byte contents. -/
abbrev FileSystem := String → Option (List Nat)

/-- A filesystem side effect performed by the library. -/
inductive FsOp where
  | writeFile (path : String) (content : List Nat)
  | removeFile (path : String)
deriving DecidableEq

/-- Errors surfaced through `std::io::Result`; the only error the library
itself synthesizes is `ErrorKind::Other` with a message. -/
inductive IoError where
  | other (msg : String)
deriving DecidableEq

/-- Lowercase hexadecimal rendering of a natural number, as Rust's
`format!("\x7b:x\x7d", n)`. -/
def hexStr (n : Nat) : String :=
  ⟨Nat.toDigits 16 n⟩

/-- `pub struct Entry \x7b pub bytes: Vec<u8>, random_id: String \x7d`. -/
structure Entry where
  bytes : List Nat
  random_id : String
deriving DecidableEq

/-- `Entry::new`: the identifier is
`format!("\x7b:x\x7d-\x7b:x\x7d.kvfs", timestamp.as_micros(), bytes.len())`,
where the timestamp is the clock reading with
`unwrap_or(Duration::from_secs(0))` as the fallback. -/
def Entry.new (clock : Option Nat) (bytes : List Nat) : Entry :=
  let timestamp := clock.getD 0
  { bytes := bytes
    random_id := hexStr timestamp ++ "-" ++ hexStr bytes.length ++ ".kvfs" }

/-- `Entry::get_temp_path`: `format!("\x7b\x7d/\x7b\x7d", temp_dir(), random_id)`. -/
def Entry.get_temp_path (e : Entry) (tempDir : String) : String :=
  tempDir ++ "/" ++ e.random_id

/-- `#[derive(Clone)]` on `Entry`: a field-wise copy. -/
def Entry.clone (e : Entry) : Entry :=
  { bytes := e.bytes, random_id := e.random_id }

/-- `Entry::map`: compute the temp path; if no file exists there, write the
byte buffer to it; return the path either way.  Result: the trace of
filesystem operations, the new filesystem, and the `io::Result<String>`. -/
def Entry.map (e : Entry) (tempDir : String) (fs : FileSystem) :
    List FsOp × FileSystem × Except IoError String :=
  let path := e.get_temp_path tempDir
  if (fs path).isSome then
    ([], fs, Except.ok path)
  else
    ([FsOp.writeFile path e.bytes],
     fun p => if p = path then some e.bytes else fs p,
     Except.ok path)

/-- `Entry::unmap`: compute the temp path; if a file exists there, delete it;
otherwise succeed without touching the filesystem. -/
def Entry.unmap (e : Entry) (tempDir : String) (fs : FileSystem) :
    List FsOp × FileSystem × Except IoError Unit :=
  let path := e.get_temp_path tempDir
  if (fs path).isSome then
    ([FsOp.removeFile path],
     fun p => if p = path then none else fs p,
     Except.ok ())
  else
    ([], fs, Except.ok ())

/-- `impl Drop for Entry`: the release event of one `Entry` value calls
`unmap` once and discards its result. -/
def Entry.drop (e : Entry) (tempDir : String) (fs : FileSystem) :
    List FsOp × FileSystem :=
  ((e.unmap tempDir fs).1, (e.unmap tempDir fs).2.1)

/-- `HashMap::insert` on the association-list model: replace the binding for
`k` in place if present (returning the previous value), else append it. -/
def alistInsert (k : String) (e : Entry) :
    List (String × Entry) → Option Entry × List (String × Entry)
  | [] => (none, [(k, e)])
  | (k', e') :: rest =>
    if k' = k then
      (some e', (k, e) :: rest)
    else
      let r := alistInsert k e rest
      (r.1, (k', e') :: r.2)

/-- `HashMap::get` on the association-list model. -/
def alistGet (k : String) : List (String × Entry) → Option Entry
  | [] => none
  | (k', e') :: rest => if k' = k then some e' else alistGet k rest

/-- `HashMap::remove` on the association-list model: delete the binding for
`k` (returning the removed value). -/
def alistRemove (k : String) :
    List (String × Entry) → Option Entry × List (String × Entry)
  | [] => (none, [])
  | (k', e') :: rest =>
    if k' = k then
      (some e', rest)
    else
      let r := alistRemove k rest
      (r.1, (k', e') :: r.2)

/-- `pub struct Storage \x7b pub entries: HashMap<String, Entry> \x7d`. -/
structure Storage where
  entries : List (String × Entry)
deriving DecidableEq

/-- `Storage::new`. -/
def Storage.new (entries : List (String × Entry)) : Storage :=
  { entries := entries }

/-- `Storage::add`: `self.entries.insert(key, entry.into())`, returning the
replaced `Entry` if any, together with the updated storage. -/
def Storage.add (s : Storage) (k : String) (e : Entry) : Option Entry × Storage :=
  let r := alistInsert k e s.entries
  (r.1, { entries := r.2 })

/-- `Storage::get`: `self.entries.get(&key)`. -/
def Storage.get (s : Storage) (k : String) : Option Entry :=
  alistGet k s.entries

/-- `Storage::remove`: `self.entries.remove(&key)`, returning the removed
`Entry` if any, together with the updated storage. -/
def Storage.remove (s : Storage) (k : String) : Option Entry × Storage :=
  let r := alistRemove k s.entries
  (r.1, { entries := r.2 })

/-- `Storage::map`: delegate to the entry's `map` when the key is present,
otherwise `Err(Error::new(ErrorKind::Other, format!("No entry with key \x7b\x7d found", key)))`.
The method takes `&self`, so the storage component of the result is the
receiver itself. -/
def Storage.map (s : Storage) (k : String) (tempDir : String) (fs : FileSystem) :
    Storage × List FsOp × FileSystem × Except IoError String :=
  match s.get k with
  | some e =>
    let r := e.map tempDir fs
    (s, r.1, r.2.1, r.2.2)
  | none =>
    (s, [], fs, Except.error (IoError.other ("No entry with key " ++ k ++ " found")))

/-- `Storage::unmap`: delegate to the entry's `unmap` when the key is present,
otherwise return `Ok(())`.  The method takes `&self`, so the storage component
of the result is the receiver itself. -/
def Storage.unmap (s : Storage) (k : String) (tempDir : String) (fs : FileSystem) :
    Storage × List FsOp × FileSystem × Except IoError Unit :=
  match s.get k with
  | some e =>
    let r := e.unmap tempDir fs
    (s, r.1, r.2.1, r.2.2)
  | none =>
    (s, [], fs, Except.ok ())

/-! ## Helper lemmas -/

/-- After `Entry::map`, a file exists at the entry's temp path. -/
theorem Entry.map_file_exists (e : Entry) (tmp : String) (fs : FileSystem) :
    ((e.map tmp fs).2.1 (e.get_temp_path tmp)).isSome := by
  by_cases h : (fs (e.get_temp_path tmp)).isSome
  · simp [Entry.map, h]
  · simp [Entry.map, h]

/-- `Entry::map` always returns `Ok` with the entry's temp path. -/
theorem Entry.map_result_ok (e : Entry) (tmp : String) (fs : FileSystem) :
    (e.map tmp fs).2.2 = Except.ok (e.get_temp_path tmp) := by
  by_cases h : (fs (e.get_temp_path tmp)).isSome
  · simp [Entry.map, h]
  · simp [Entry.map, h]

/-- After `Entry::unmap`, no file exists at the entry's temp path. -/
theorem Entry.unmap_file_absent (e : Entry) (tmp : String) (fs : FileSystem) :
    (e.unmap tmp fs).2.1 (e.get_temp_path tmp) = none := by
  by_cases h : (fs (e.get_temp_path tmp)).isSome
  · simp [Entry.unmap, h]
  · simp only [Entry.unmap, h, if_neg, Bool.false_eq_true, not_false_eq_true, if_false]
    exact Option.not_isSome_iff_eq_none.mp (by simpa using h)

/-! ## Claim theorems -/

/-- C1: for every byte sequence `B`, constructing an `Entry` from `B` and
calling `map` (when no file is already present at the temp path) performs
exactly one write of exactly the bytes `B` to the returned temp path, returns
that path, and a subsequent `unmap` removes the file so the path no longer
exists. -/
theorem map_write_unmap_roundtrip (clock : Option Nat) (B : List Nat)
    (tmp : String) (fs : FileSystem)
    (h : fs ((Entry.new clock B).get_temp_path tmp) = none) :
    ((Entry.new clock B).map tmp fs).1
      = [FsOp.writeFile ((Entry.new clock B).get_temp_path tmp) B] ∧
    ((Entry.new clock B).map tmp fs).2.1 ((Entry.new clock B).get_temp_path tmp)
      = some B ∧
    ((Entry.new clock B).map tmp fs).2.2
      = Except.ok ((Entry.new clock B).get_temp_path tmp) ∧
    ((Entry.new clock B).unmap tmp ((Entry.new clock B).map tmp fs).2.1).2.1
      ((Entry.new clock B).get_temp_path tmp) = none := by
  refine ⟨?_, ?_, ?_, ?_⟩
  · simp [Entry.map, h]
    rfl
  · simp [Entry.map, h]
    rfl
  · exact Entry.map_result_ok _ _ _
  · exact Entry.unmap_file_absent _ _ _

/-- C1 witness: concrete round trip for the single byte `72` at clock `0`. -/
theorem map_write_unmap_roundtrip_witness :
    ((fun _ => none : FileSystem)
        ((Entry.new (some 0) [72]).get_temp_path "/tmp") = none) ∧
    (((Entry.new (some 0) [72]).map "/tmp" (fun _ => none)).1
      = [FsOp.writeFile ((Entry.new (some 0) [72]).get_temp_path "/tmp") [72]] ∧
    ((Entry.new (some 0) [72]).map "/tmp" (fun _ => none)).2.1
        ((Entry.new (some 0) [72]).get_temp_path "/tmp") = some [72] ∧
    ((Entry.new (some 0) [72]).map "/tmp" (fun _ => none)).2.2
      = Except.ok ((Entry.new (some 0) [72]).get_temp_path "/tmp") ∧
    ((Entry.new (some 0) [72]).unmap "/tmp"
        ((Entry.new (some 0) [72]).map "/tmp" (fun _ => none)).2.1).2.1
        ((Entry.new (some 0) [72]).get_temp_path "/tmp") = none) :=
  ⟨rfl, map_write_unmap_roundtrip (some 0) [72] "/tmp" (fun _ => none) rfl⟩

/-- C3: calling `map` twice in succession returns the same path both times
(namely `Ok` of the temp path), and the second call performs no filesystem
operation and leaves the filesystem — in particular the file's content —
unchanged. -/
theorem map_idempotent (e : Entry) (tmp : String) (fs : FileSystem) :
    (e.map tmp fs).2.2 = Except.ok (e.get_temp_path tmp) ∧
    (e.map tmp (e.map tmp fs).2.1).2.2 = (e.map tmp fs).2.2 ∧
    (e.map tmp (e.map tmp fs).2.1).1 = [] ∧
    (e.map tmp (e.map tmp fs).2.1).2.1 = (e.map tmp fs).2.1 := by
  have hex := Entry.map_file_exists e tmp fs
  refine ⟨Entry.map_result_ok _ _ _,
    (Entry.map_result_ok e tmp _).trans (Entry.map_result_ok e tmp fs).symm, ?_, ?_⟩
  · set fs1 := (e.map tmp fs).2.1 with hfs1
    simp [Entry.map, hex]
  · set fs1 := (e.map tmp fs).2.1 with hfs1
    simp [Entry.map, hex]

/-- C4: calling `unmap` twice in succession: the second call returns success,
and it performs no filesystem operation (the file is absent after the first
call, so no delete is attempted and the filesystem is unchanged). -/
theorem unmap_idempotent (e : Entry) (tmp : String) (fs : FileSystem) :
    (e.unmap tmp (e.unmap tmp fs).2.1).2.2 = Except.ok () ∧
    (e.unmap tmp (e.unmap tmp fs).2.1).1 = [] ∧
    (e.unmap tmp (e.unmap tmp fs).2.1).2.1 = (e.unmap tmp fs).2.1 := by
  have habs := Entry.unmap_file_absent e tmp fs
  set fs1 := (e.unmap tmp fs).2.1 with hfs1
  refine ⟨?_, ?_, ?_⟩ <;>
    simp [Entry.unmap, habs]

/-- C7: the identifier is the hex of the timestamp, a dash, the hex of the
byte length, and the suffix ".kvfs"; the write target is the temp directory
joined with the identifier; two entries constructed at the same microsecond
from equally long byte sequences get the same identifier. -/
theorem identifier_format (clock : Option Nat) (B B' : List Nat) (tmp : String)
    (h : B'.length = B.length) :
    (Entry.new clock B).random_id
      = hexStr (clock.getD 0) ++ "-" ++ hexStr B.length ++ ".kvfs" ∧
    (Entry.new clock B).get_temp_path tmp
      = tmp ++ "/" ++ (Entry.new clock B).random_id ∧
    (Entry.new clock B').random_id = (Entry.new clock B).random_id := by
  refine ⟨rfl, rfl, ?_⟩
  simp [Entry.new, h]

/-- C7 witness: at clock `5`, the two-byte sequences `[1, 2]` and `[3, 4]`
yield identifier `"5-2.kvfs"` and temp path `"/tmp/5-2.kvfs"`. -/
theorem identifier_format_witness :
    ([3, 4] : List Nat).length = ([1, 2] : List Nat).length ∧
    ((Entry.new (some 5) [1, 2]).random_id
      = hexStr ((some 5 : Option Nat).getD 0) ++ "-"
          ++ hexStr ([1, 2] : List Nat).length ++ ".kvfs" ∧
    (Entry.new (some 5) [1, 2]).get_temp_path "/tmp"
      = "/tmp" ++ "/" ++ (Entry.new (some 5) [1, 2]).random_id ∧
    (Entry.new (some 5) [3, 4]).random_id = (Entry.new (some 5) [1, 2]).random_id) :=
  ⟨rfl, identifier_format (some 5) [1, 2] [3, 4] "/tmp" rfl⟩

/-- C8: the temp path is a pure function of the identifier and the temp
directory: it equals the temp directory joined with the identifier, so any
two entries with the same identifier have the same temp path under the same
temp directory. -/
theorem get_temp_path_pure (e1 e2 : Entry) (tmp : String)
    (h : e1.random_id = e2.random_id) :
    e1.get_temp_path tmp = tmp ++ "/" ++ e1.random_id ∧
    e1.get_temp_path tmp = e2.get_temp_path tmp := by
  refine ⟨rfl, ?_⟩
  simp [Entry.get_temp_path, h]

/-- C8 witness: two entries with equal identifiers (same clock, same byte
length, different bytes) share the temp path. -/
theorem get_temp_path_pure_witness :
    (Entry.new (some 0) [1]).random_id = (Entry.new (some 0) [2]).random_id ∧
    ((Entry.new (some 0) [1]).get_temp_path "/tmp"
        = "/tmp" ++ "/" ++ (Entry.new (some 0) [1]).random_id ∧
      (Entry.new (some 0) [1]).get_temp_path "/tmp"
        = (Entry.new (some 0) [2]).get_temp_path "/tmp") :=
  ⟨rfl, get_temp_path_pure (Entry.new (some 0) [1]) (Entry.new (some 0) [2]) "/tmp" rfl⟩

/-- C9: construction never fails: `Entry.new` is total, and when the clock is
unavailable the timestamp falls back to zero, so the result coincides with
construction at clock zero; the stored bytes are the given ones. -/
theorem new_never_fails (B : List Nat) :
    Entry.new none B = Entry.new (some 0) B ∧ (Entry.new none B).bytes = B :=
  ⟨rfl, rfl⟩

/-- C10: `Storage::map` and `Storage::unmap` take the storage by shared
reference: the entries mapping (keys, bound entries, their bytes and
identifiers) is returned unchanged by both. -/
theorem storage_map_unmap_frame (s : Storage) (k tmp : String) (fs : FileSystem) :
    (s.map k tmp fs).1 = s ∧ (s.unmap k tmp fs).1 = s := by
  constructor
  · unfold Storage.map
    cases s.get k <;> rfl
  · unfold Storage.unmap
    cases s.get k <;> rfl

/-- C5: for a key absent from the entries mapping, `Storage::map` returns the
synthesized unknown-key error while `Storage::unmap` returns success. -/
theorem storage_unknown_key (s : Storage) (k tmp : String) (fs : FileSystem)
    (h : s.get k = none) :
    (s.map k tmp fs).2.2.2
      = Except.error (IoError.other ("No entry with key " ++ k ++ " found")) ∧
    (s.unmap k tmp fs).2.2.2 = Except.ok () := by
  constructor <;> simp [Storage.map, Storage.unmap, h]

/-- C5 witness: the empty storage at key "missing". -/
theorem storage_unknown_key_witness :
    (Storage.new []).get "missing" = none ∧
    (((Storage.new []).map "missing" "/tmp" (fun _ => none)).2.2.2
      = Except.error
          (IoError.other ("No entry with key " ++ "missing" ++ " found")) ∧
    ((Storage.new []).unmap "missing" "/tmp" (fun _ => none)).2.2.2
      = Except.ok ()) :=
  ⟨rfl, storage_unknown_key (Storage.new []) "missing" "/tmp" (fun _ => none) rfl⟩

/-- Looking up a key right after inserting it yields the inserted entry. -/
theorem alistGet_alistInsert (k : String) (e : Entry) (l : List (String × Entry)) :
    alistGet k (alistInsert k e l).2 = some e := by
  induction l with
  | nil => simp [alistInsert, alistGet]
  | cons hd tl ih =>
    obtain ⟨k', e'⟩ := hd
    by_cases hk : k' = k
    · simp [alistInsert, hk, alistGet]
    · simp [alistInsert, hk, alistGet, ih]

/-- Inserting twice under the same key: the second insert returns the first
inserted entry as the replaced value. -/
theorem alistInsert_alistInsert_fst (k : String) (e1 e2 : Entry)
    (l : List (String × Entry)) :
    (alistInsert k e2 (alistInsert k e1 l).2).1 = some e1 := by
  induction l with
  | nil => simp [alistInsert]
  | cons hd tl ih =>
    obtain ⟨k', e'⟩ := hd
    by_cases hk : k' = k
    · simp [alistInsert, hk]
    · simp [alistInsert, hk, ih]

/-- Inserting under a key already bound leaves the key list unchanged. -/
theorem alistInsert_keys_of_mem (k : String) (e : Entry)
    (l : List (String × Entry)) (hk : k ∈ l.map Prod.fst) :
    (alistInsert k e l).2.map Prod.fst = l.map Prod.fst := by
  induction l with
  | nil => simp at hk
  | cons hd tl ih =>
    obtain ⟨k', e'⟩ := hd
    by_cases h : k' = k
    · simp [alistInsert, h]
    · have hk' : k ∈ tl.map Prod.fst := by
        simp at hk
        rcases hk with hk | hk
        · exact absurd hk.symm h
        · simpa using hk
      simp [alistInsert, h, ih hk']

/-- Inserting under a fresh key appends it to the key list. -/
theorem alistInsert_keys_of_not_mem (k : String) (e : Entry)
    (l : List (String × Entry)) (hk : k ∉ l.map Prod.fst) :
    (alistInsert k e l).2.map Prod.fst = l.map Prod.fst ++ [k] := by
  induction l with
  | nil => simp [alistInsert]
  | cons hd tl ih =>
    obtain ⟨k', e'⟩ := hd
    have h : k' ≠ k := by
      intro h
      exact hk (by simp [h])
    have hk' : k ∉ tl.map Prod.fst := fun h' => hk (by simp [h'])
    simp [alistInsert, h, ih hk']

/-- Insertion preserves uniqueness of keys. -/
theorem alistInsert_nodup (k : String) (e : Entry) (l : List (String × Entry))
    (hnd : (l.map Prod.fst).Nodup) :
    ((alistInsert k e l).2.map Prod.fst).Nodup := by
  by_cases hk : k ∈ l.map Prod.fst
  · rw [alistInsert_keys_of_mem k e l hk]
    exact hnd
  · rw [alistInsert_keys_of_not_mem k e l hk]
    simp [List.nodup_append, hnd]
    intro a ha
    exact hk (by simpa using List.mem_map_of_mem Prod.fst ha)

/-- C6: adding `e1` under `k` and then `e2` under the same `k`: the second
add returns `e1` as the replaced value, `get k` afterwards yields `e2` (and
not `e1`, whenever the two differ), and the key list stays duplicate-free,
so at most one entry is stored per key. -/
theorem storage_add_replace (s : Storage) (k : String) (e1 e2 : Entry)
    (hnd : (s.entries.map Prod.fst).Nodup) (hne : e1 ≠ e2) :
    (((s.add k e1).2).add k e2).1 = some e1 ∧
    (((s.add k e1).2).add k e2).2.get k = some e2 ∧
    (((s.add k e1).2).add k e2).2.get k ≠ some e1 ∧
    ((((((s.add k e1).2).add k e2).2).entries).map Prod.fst).Nodup := by
  refine ⟨alistInsert_alistInsert_fst k e1 e2 s.entries, ?_, ?_, ?_⟩
  · exact alistGet_alistInsert k e2 _
  · rw [show (((s.add k e1).2).add k e2).2.get k = some e2 from
      alistGet_alistInsert k e2 _]
    intro h
    exact hne (Option.some.inj h).symm
  · exact alistInsert_nodup k e2 _ (alistInsert_nodup k e1 _ hnd)

/-- C6 witness: empty storage, key "k", entries with bytes `[1]` and `[2]`. -/
theorem storage_add_replace_witness :
    ((((Storage.new []).entries).map Prod.fst).Nodup
      ∧ Entry.new (some 0) [1] ≠ Entry.new (some 0) [2]) ∧
    (((((Storage.new []).add "k" (Entry.new (some 0) [1])).2).add "k"
        (Entry.new (some 0) [2])).1 = some (Entry.new (some 0) [1]) ∧
    ((((Storage.new []).add "k" (Entry.new (some 0) [1])).2).add "k"
        (Entry.new (some 0) [2])).2.get "k" = some (Entry.new (some 0) [2]) ∧
    ((((Storage.new []).add "k" (Entry.new (some 0) [1])).2).add "k"
        (Entry.new (some 0) [2])).2.get "k" ≠ some (Entry.new (some 0) [1]) ∧
    (((((((Storage.new []).add "k" (Entry.new (some 0) [1])).2).add "k"
        (Entry.new (some 0) [2])).2).entries).map Prod.fst).Nodup) :=
  ⟨⟨List.nodup_nil, by decide⟩,
    storage_add_replace (Storage.new []) "k"
      (Entry.new (some 0) [1]) (Entry.new (some 0) [2])
      List.nodup_nil (by decide)⟩

/-- C2 counterexample: `Entry` derives `Clone`, so ownership of an entry's
temp file is not exclusive.  Concretely: map an entry, drop a clone of it —
that release event already removes the temp file although the original owner
is still alive (so cleanup is not triggered at the last release) — then let
the original re-map and drop it: the very same temp file is removed a second
time, in a second release event.  Double release of the same temp file is
therefore possible. -/
theorem entry_clone_double_release :
    (Entry.drop (Entry.clone (Entry.new (some 0) [72])) "/tmp"
        ((Entry.new (some 0) [72]).map "/tmp" (fun _ => none)).2.1).1
      = [FsOp.removeFile ((Entry.new (some 0) [72]).get_temp_path "/tmp")] ∧
    (Entry.drop (Entry.new (some 0) [72]) "/tmp"
        ((Entry.new (some 0) [72]).map "/tmp"
          (Entry.drop (Entry.clone (Entry.new (some 0) [72])) "/tmp"
            ((Entry.new (some 0) [72]).map "/tmp" (fun _ => none)).2.1).2).2.1).1
      = [FsOp.removeFile ((Entry.new (some 0) [72]).get_temp_path "/tmp")] := by
  constructor <;> rfl

/-- C2 amended: each individual release event (drop) of an `Entry` value
attempts cleanup exactly once — it removes the entry's temp file precisely
when the file is present, performs no other filesystem operation, and leaves
the path absent; but since `Entry` implements `Clone`, a clone is an
identical value sharing the identifier and temp file, so exclusive ownership
of the temp file — and hence impossibility of double release — is not
guaranteed. -/
theorem entry_drop_release (e : Entry) (tmp : String) (fs : FileSystem) :
    (Entry.drop e tmp fs).1
      = (if (fs (e.get_temp_path tmp)).isSome then
          [FsOp.removeFile (e.get_temp_path tmp)]
        else []) ∧
    (Entry.drop e tmp fs).2 (e.get_temp_path tmp) = none ∧
    Entry.clone e = e := by
  refine ⟨?_, Entry.unmap_file_absent e tmp fs, rfl⟩
  by_cases h : (fs (e.get_temp_path tmp)).isSome
  · simp [Entry.drop, Entry.unmap, h]
  · simp [Entry.drop, Entry.unmap, h]
